import Mathlib

/-!
Shallow embedding of the bet lifecycle engine of the diet-NFL-betting
repository: data model (src/app/models.py), the two coexisting bet
validation/placement/cancellation implementations
(src/app/services/bet_service.py and src/app/services/bet_validator.py),
and the settlement engine (src/app/services/settlement_service.py).

Monetary amounts are embedded as rationals; timestamps as integers
counting seconds (UTC), so that `timedelta(minutes=5)` becomes the
constant 300 and `timedelta.days` becomes floor division by 86400.
Statuses are kept as the literal strings the source stores in the
database columns.
-/

namespace DietNFL

abbrev Money := ℚ

/-- IEEE-style float value as far as the source's comparisons are
concerned: the services compare wager amounts only with `<`, `<=`, `>`,
and every comparison involving NaN is false. Finite values carry a
rational magnitude. -/
inductive PyFloat where
  | nan
  | inf
  | neginf
  | fin (q : ℚ)
deriving Repr, DecidableEq

/-- IEEE `<` on embedded float values: false whenever either side is NaN. -/
def PyFloat.lt : PyFloat → PyFloat → Bool
  | .nan, _ => false
  | _, .nan => false
  | .neginf, .neginf => false
  | .neginf, _ => true
  | _, .neginf => false
  | .inf, _ => false
  | .fin _, .inf => true
  | .fin q, .fin r => decide (q < r)

/-- IEEE `<=` on embedded float values: false whenever either side is NaN. -/
def PyFloat.le (a b : PyFloat) : Bool :=
  PyFloat.lt a b || (!(a == PyFloat.nan) && a == b)

/-- `users` table (src/app/models.py lines 8 to 44): the balance and the
cumulative statistics counters mutated by placement, cancellation and
settlement. -/
structure User where
  balance : Money
  total_bets : Nat
  winning_bets : Nat
  losing_bets : Nat
  total_winnings : Money
  total_losses : Money
  biggest_win : Money
  biggest_loss : Money
deriving Repr, DecidableEq

/-- `games` table (src/app/models.py lines 110 to 159): teams, schedule,
lifecycle status string, result fields and the aggregate betting
counters. Counters are integers because the source decrements them. -/
structure Game where
  id : Nat
  home_team : String
  away_team : String
  game_time : Int
  status : String
  winner : Option String
  is_tie : Bool
  total_bets : Int
  total_wagered : Money
  home_bets : Int
  away_bets : Int
  home_wagered : Money
  away_wagered : Money
deriving Repr, DecidableEq

/-- `bets` table (src/app/models.py lines 210 to 236). -/
structure Bet where
  id : Nat
  game_id : Nat
  team_picked : String
  wager_amount : Money
  potential_payout : Money
  actual_payout : Money
  status : String
  settled_at : Option Int
deriving Repr, DecidableEq

/-- `transactions` audit table (src/app/models.py lines 303 to 325). -/
structure Txn where
  type : String
  amount : Money
  balance_before : Money
  balance_after : Money
  bet_id : Option Nat
deriving Repr, DecidableEq

/-- The ledger store: one user (all claims are per-user), the games and
bets tables, and the audit trail. `transactions` is kept most recent
first. `next_bet_id` models the autoincrement primary key. -/
structure SState where
  user : User
  games : List Game
  bets : List Bet
  transactions : List Txn
  next_bet_id : Nat
deriving Repr, DecidableEq

def findBet (s : SState) (bid : Nat) : Option Bet :=
  s.bets.find? (fun b => b.id == bid)

def findGame (s : SState) (gid : Nat) : Option Game :=
  s.games.find? (fun g => g.id == gid)

/-- Replace the first bet carrying the given id (the row the source's
query returned and mutated in place). -/
def setBet : List Bet → Nat → Bet → List Bet
  | [], _, _ => []
  | b :: bs, bid, nb => if b.id == bid then nb :: bs else b :: setBet bs bid nb

/-- Replace the first game carrying the given id. -/
def setGame : List Game → Nat → Game → List Game
  | [], _, _ => []
  | g :: gs, gid, ng => if g.id == gid then ng :: gs else g :: setGame gs gid ng

/-- `timedelta(minutes=5)` in seconds. -/
def minutes5 : Int := 300

/-- `Game.is_bettable` (src/app/models.py lines 161 to 170): the game is
open for betting while its status is `scheduled` and the current time is
strictly before `game_time` minus five minutes. The source's two
branches (naive versus aware datetime) both compute this same cutoff. -/
def Game.is_bettable (g : Game) (now : Int) : Bool :=
  g.status == "scheduled" && now < g.game_time - minutes5

/-! ## Settlement engine (src/app/services/settlement_service.py) -/

/-- Outcome of `SettlementService.settle_bet`: the success dictionary or
one of the three distinct error dictionaries it returns. The
`alreadySettled` variant is the state-conflict error for a bet that is
no longer pending. -/
inductive SettleResult where
  | ok (bet_id : Nat) (outcome : String) (payout : Money)
  | notFound (bet_id : Nat)
  | alreadySettled (bet_id : Nat) (bet_status : String)
  | gameNotFinal (bet_id : Nat) (game_status : String)
deriving Repr, DecidableEq

def SettleResult.success : SettleResult → Bool
  | .ok _ _ _ => true
  | _ => false

/-- `_determine_bet_outcome` (settlement_service.py lines 127 to 147). -/
def determine_bet_outcome (g : Game) (b : Bet) : String :=
  if g.is_tie ∨ g.winner = none then "push"
  else if some b.team_picked = g.winner then "won"
  else "lost"

/-- `_calculate_payout` (settlement_service.py lines 149 to 166). -/
def calculate_payout (b : Bet) (outcome : String) : Money :=
  if outcome = "won" then b.potential_payout
  else if outcome = "push" then b.wager_amount
  else 0

/-- `_update_user_after_settlement` (settlement_service.py lines 168 to
198): credit the payout, then update the win/loss statistics. Note that
the biggest-win comparison uses the gross payout, and the biggest-loss
comparison uses the wager amount. -/
def update_user_after_settlement (u : User) (b : Bet) (outcome : String)
    (payout : Money) : User :=
  let u1 := { u with balance := u.balance + payout }
  if outcome = "won" then
    let u2 := { u1 with winning_bets := u1.winning_bets + 1,
                        total_winnings := u1.total_winnings + payout }
    if payout > u2.biggest_win then { u2 with biggest_win := payout } else u2
  else if outcome = "lost" then
    let u2 := { u1 with losing_bets := u1.losing_bets + 1,
                        total_losses := u1.total_losses + b.wager_amount }
    if b.wager_amount > u2.biggest_loss then
      { u2 with biggest_loss := b.wager_amount }
    else u2
  else u1

/-- The `_transaction_types` map set up in `SettlementService.__init__`. -/
def settlement_transaction_type (outcome : String) : String :=
  if outcome = "won" then "bet_won"
  else if outcome = "lost" then "bet_lost"
  else "bet_push"

/-- `_create_settlement_transaction` (settlement_service.py lines 200 to
222): called after the user's balance has been credited, so
`balance_before` is reconstructed by subtracting the payout. -/
def create_settlement_transaction (u : User) (b : Bet) (outcome : String)
    (payout : Money) : Txn :=
  { type := settlement_transaction_type outcome
    amount := payout
    balance_before := u.balance - payout
    balance_after := u.balance
    bet_id := some b.id }

/-- `SettlementService.settle_bet` (settlement_service.py lines 43 to
125). The source's query joins Bet with Game (and User), so a bet whose
game is missing is reported as not found. Guards: a non-pending bet is
rejected as already settled, a bet on a non-final game is rejected; on
the happy path the bet is finalized, the user credited and updated, and
an audit transaction recorded, all together. -/
def settle_bet (s : SState) (bid : Nat) (now : Int) : SettleResult × SState :=
  match findBet s bid with
  | none => (.notFound bid, s)
  | some bet =>
    match findGame s bet.game_id with
    | none => (.notFound bid, s)
    | some game =>
      if bet.status ≠ "pending" then (.alreadySettled bid bet.status, s)
      else if game.status ≠ "final" then (.gameNotFinal bid game.status, s)
      else
        let outcome := determine_bet_outcome game bet
        let payout := calculate_payout bet outcome
        let bet' := { bet with status := outcome, actual_payout := payout,
                               settled_at := some now }
        let user' := update_user_after_settlement s.user bet outcome payout
        let txn := create_settlement_transaction user' bet outcome payout
        (.ok bid outcome payout,
         { s with bets := setBet s.bets bid bet'
                  user := user'
                  transactions := txn :: s.transactions })

/-- Result dictionary of `settle_completed_games`. -/
structure BatchResult where
  games_processed : Nat
  bets_settled : Nat
  errors : List SettleResult
deriving Repr, DecidableEq

/-- The settlement loop body of `settle_completed_games`
(settlement_service.py lines 246 to 265): settle each bet id in turn,
counting successes and collecting per-bet errors; each `settle_bet` call
commits or fails independently. -/
def settle_list (s : SState) (now : Int) :
    List Nat → (Nat × List SettleResult) × SState
  | [] => ((0, []), s)
  | bid :: ids =>
    let p := settle_bet s bid now
    let q := settle_list p.2 now ids
    if p.1.success then ((q.1.1 + 1, q.1.2), q.2)
    else ((q.1.1, p.1 :: q.1.2), q.2)

/-- The query of `settle_completed_games` (settlement_service.py lines
233 to 238): final games having at least one pending bet. -/
def completed_games (s : SState) : List Game :=
  s.games.filter (fun g => g.status == "final" &&
    s.bets.any (fun b => b.game_id == g.id && b.status == "pending"))

/-- Pending bets of one game (settlement_service.py lines 248 to 251). -/
def pending_bet_ids (s : SState) (gid : Nat) : List Nat :=
  (s.bets.filter (fun b => b.game_id == gid && b.status == "pending")).map
    (fun b => b.id)

/-- `settle_completed_games` (settlement_service.py lines 224 to 283). -/
def settle_completed_games (s : SState) (now : Int) : BatchResult × SState :=
  let games := completed_games s
  let ids := (games.map (fun g => pending_bet_ids s g.id)).flatten
  let q := settle_list s now ids
  ({ games_processed := games.length, bets_settled := q.1.1,
     errors := q.1.2 }, q.2)

/-! ## Shared validation pieces

Team selection and duplicate checks are textually the same decision in
both service files (bet_service.py lines 93 to 117, bet_validator.py
lines 76 to 118): the picked team must be non-empty and one of the two
sides, and the user must not already hold a pending bet on the game. -/

def validate_team_selection (team : String) (g : Game) : Bool :=
  !(team == "") && (team == g.home_team || team == g.away_team)

def has_pending_bet (s : SState) (gid : Nat) : Bool :=
  s.bets.any (fun b => b.game_id == gid && b.status == "pending")

/-! ## The bet_service.py implementation (`BetValidator` used by the
betting routes) -/

namespace BetService

/-- `BetValidator.validate_bet_amount` (bet_service.py lines 30 to 58):
reject when `amount <= 0`, when `amount < MIN_BET_AMOUNT`, or when
`amount > user.balance`; accept otherwise. The comparisons are float
comparisons, so every comparison with NaN is false. -/
def validate_bet_amount (min_bet : Money) (u : User) (amount : PyFloat) : Bool :=
  if PyFloat.le amount (.fin 0) then false
  else if PyFloat.lt amount (.fin min_bet) then false
  else if PyFloat.lt (.fin u.balance) amount then false
  else true

/-- `BetValidator.validate_game_timing` (bet_service.py lines 60 to 91):
reject a game that has started, then a game within the five-minute
cutoff, then a game whose status is neither `scheduled` nor `pre`. -/
def validate_game_timing (g : Game) (now : Int) : Bool :=
  if g.game_time ≤ now then false
  else if g.game_time - minutes5 ≤ now then false
  else if ¬(g.status = "scheduled" ∨ g.status = "pre") then false
  else true

/-- `BetValidator.validate_bet_comprehensive` (bet_service.py lines 119
to 138). -/
def validate_bet_comprehensive (min_bet : Money) (s : SState) (gid : Nat)
    (team : String) (amount : PyFloat) (now : Int) : Bool :=
  match findGame s gid with
  | none => false
  | some g =>
    validate_bet_amount min_bet s.user amount &&
    validate_game_timing g now &&
    validate_team_selection team g &&
    !(has_pending_bet s gid)

/-- `BetValidator.create_bet` (bet_service.py lines 149 to 191): after
comprehensive validation, create the pending bet with
`potential_payout = wager * PAYOUT_MULTIPLIER` and debit the user's
balance. This implementation creates no audit transaction and does not
touch the user or game counters. -/
def create_bet (min_bet multiplier : Money) (s : SState) (gid : Nat)
    (team : String) (wager : Money) (now : Int) : Option Bet × SState :=
  if ¬ validate_bet_comprehensive min_bet s gid team (.fin wager) now then
    (none, s)
  else
    let bet : Bet := { id := s.next_bet_id, game_id := gid,
                       team_picked := team, wager_amount := wager,
                       potential_payout := wager * multiplier,
                       actual_payout := 0, status := "pending",
                       settled_at := none }
    let user' := { s.user with balance := s.user.balance - wager }
    (some bet, { s with user := user', bets := s.bets ++ [bet],
                        next_bet_id := s.next_bet_id + 1 })

/-- `BetValidator.cancel_bet` (bet_service.py lines 193 to 236): only a
pending bet can be cancelled, only strictly before the five-minute
cutoff; on success the bet is marked cancelled and the wager refunded.
This implementation does not reverse the game's aggregate counters. -/
def cancel_bet (s : SState) (bid : Nat) (now : Int) : Bool × SState :=
  match findBet s bid with
  | none => (false, s)
  | some bet =>
    if bet.status ≠ "pending" then (false, s)
    else
      match findGame s bet.game_id with
      | none => (false, s)
      | some g =>
        if g.game_time - minutes5 ≤ now then (false, s)
        else
          let bet' := { bet with status := "cancelled", settled_at := some now }
          let user' := { s.user with balance := s.user.balance + bet.wager_amount }
          (true, { s with user := user', bets := setBet s.bets bid bet' })

end BetService

/-! ## The bet_validator.py implementation (`BetValidator` used by the
test suite; the full placement/cancellation service with counters and
audit trail) -/

namespace BetValidatorSvc

/-- `BetValidator.validate_bet_amount` (bet_validator.py lines 36 to
56): reject a missing amount or `amount <= 0`, reject
`amount > user.balance`; there is no minimum-bet check here. -/
def validate_bet_amount (u : User) (amount : Option PyFloat) : Bool :=
  match amount with
  | none => false
  | some a =>
    if PyFloat.le a (.fin 0) then false
    else if PyFloat.lt (.fin u.balance) a then false
    else true

/-- `BetValidator.validate_game_timing` (bet_validator.py lines 58 to
74) delegates to `Game.is_bettable`. -/
def validate_game_timing (g : Game) (now : Int) : Bool :=
  g.is_bettable now

/-- `BetValidator.validate_bet` (bet_validator.py lines 120 to 145),
with the game resolved from the store. -/
def validate_bet (s : SState) (gid : Nat) (team : String)
    (amount : Option PyFloat) (now : Int) : Bool :=
  match findGame s gid with
  | none => false
  | some g =>
    validate_bet_amount s.user amount &&
    validate_game_timing g now &&
    validate_team_selection team g &&
    !(has_pending_bet s gid)

/-- `BetValidator.create_bet` (bet_validator.py lines 147 to 218): create
the pending bet (`potential_payout = wager * 2`), debit the balance,
increment the user's `total_bets`, increment the game's total and
picked-side counters, and record a `bet_placed` transaction whose amount
is the negated wager; the transaction's bet reference is filled in with
the new bet's id. -/
def create_bet (s : SState) (gid : Nat) (team : String) (wager : Money) :
    Option Bet × SState :=
  match findGame s gid with
  | none => (none, s)
  | some g =>
    let bet : Bet := { id := s.next_bet_id, game_id := gid,
                       team_picked := team, wager_amount := wager,
                       potential_payout := wager * 2, actual_payout := 0,
                       status := "pending", settled_at := none }
    let user' := { s.user with balance := s.user.balance - wager,
                               total_bets := s.user.total_bets + 1 }
    let g' :=
      if team == g.home_team then
        { g with total_bets := g.total_bets + 1,
                 total_wagered := g.total_wagered + wager,
                 home_bets := g.home_bets + 1,
                 home_wagered := g.home_wagered + wager }
      else
        { g with total_bets := g.total_bets + 1,
                 total_wagered := g.total_wagered + wager,
                 away_bets := g.away_bets + 1,
                 away_wagered := g.away_wagered + wager }
    let txn : Txn := { type := "bet_placed", amount := -wager,
                       balance_before := user'.balance + wager,
                       balance_after := user'.balance,
                       bet_id := some bet.id }
    (some bet, { s with user := user', games := setGame s.games gid g',
                        bets := s.bets ++ [bet],
                        transactions := txn :: s.transactions,
                        next_bet_id := s.next_bet_id + 1 })

/-- `BetValidator.validate_and_create_bet` (bet_validator.py lines 220
to 239). -/
def validate_and_create_bet (s : SState) (gid : Nat) (team : String)
    (wager : Money) (now : Int) : Option Bet × SState :=
  if validate_bet s gid team (some (.fin wager)) now then
    create_bet s gid team wager
  else (none, s)

/-- `BetValidator.cancel_bet` (bet_validator.py lines 241 to 319): a
pending bet may be cancelled strictly before the five-minute cutoff; a
bet whose game started more than one full day ago (stale data) may also
be cancelled. On success the bet is marked cancelled, the wager is
refunded, and the game's total and picked-side counters are decremented
to reverse the placement. `timedelta.days` is floor division of the
elapsed seconds by 86400. -/
def cancel_bet (s : SState) (bid : Nat) (now : Int) : Bool × SState :=
  match findBet s bid with
  | none => (false, s)
  | some bet =>
    if bet.status ≠ "pending" then (false, s)
    else
      match findGame s bet.game_id with
      | none => (false, s)
      | some g =>
        let allowed :=
          if g.game_time ≤ now then Int.fdiv (now - g.game_time) 86400 > 1
          else now < g.game_time - minutes5
        if ¬ allowed then (false, s)
        else
          let bet' := { bet with status := "cancelled", settled_at := some now }
          let user' := { s.user with balance := s.user.balance + bet.wager_amount }
          let g' :=
            if bet.team_picked == g.home_team then
              { g with total_bets := g.total_bets - 1,
                       total_wagered := g.total_wagered - bet.wager_amount,
                       home_bets := g.home_bets - 1,
                       home_wagered := g.home_wagered - bet.wager_amount }
            else
              { g with total_bets := g.total_bets - 1,
                       total_wagered := g.total_wagered - bet.wager_amount,
                       away_bets := g.away_bets - 1,
                       away_wagered := g.away_wagered - bet.wager_amount }
          (true, { s with user := user', bets := setBet s.bets bid bet',
                          games := setGame s.games bet.game_id g' })

end BetValidatorSvc

/-! ## Synchronizer game update and operation sequences -/

/-- `ESPNService._update_existing_game` (espn_service.py lines 332 to
350) as far as the bet lifecycle is concerned: it rewrites the game's
status, winner and tie flag in place, touching neither the user's
counters nor any bet. -/
def update_existing_game (s : SState) (gid : Nat) (st : String)
    (w : Option String) (tie : Bool) : SState :=
  match findGame s gid with
  | none => s
  | some g =>
    let g' := { g with status := st, winner := w, is_tie := tie }
    { s with games := setGame s.games gid g' }

/-- One bet-lifecycle operation: a placement through either service, a
cancellation through either service, a single-bet settlement, or a
synchronizer game update. Each carries the wall-clock instant at which
it runs. -/
inductive Op where
  | placeV (gid : Nat) (team : String) (wager : Money) (now : Int)
  | placeS (gid : Nat) (team : String) (wager : Money) (now : Int)
  | cancelV (bid : Nat) (now : Int)
  | cancelS (bid : Nat) (now : Int)
  | settleOp (bid : Nat) (now : Int)
  | syncOp (gid : Nat) (st : String) (w : Option String) (tie : Bool)
deriving Repr, DecidableEq

/-- Whether the operation is a placement through bet_service.py's
`create_bet` (the implementation that skips the counters). -/
def Op.isPlaceS : Op → Bool
  | .placeS _ _ _ _ => true
  | _ => false

def applyOp (min_bet multiplier : Money) (s : SState) : Op → SState
  | .placeV gid team wager now =>
    (BetValidatorSvc.validate_and_create_bet s gid team wager now).2
  | .placeS gid team wager now =>
    (BetService.create_bet min_bet multiplier s gid team wager now).2
  | .cancelV bid now => (BetValidatorSvc.cancel_bet s bid now).2
  | .cancelS bid now => (BetService.cancel_bet s bid now).2
  | .settleOp bid now => (settle_bet s bid now).2
  | .syncOp gid st w tie => update_existing_game s gid st w tie

def runOps (min_bet multiplier : Money) (s : SState) : List Op → SState
  | [] => s
  | op :: ops => runOps min_bet multiplier (applyOp min_bet multiplier s op) ops

/-- A freshly created user (models.py defaults): full starting balance,
all counters zero. -/
def fresh_user (start : Money) : User :=
  { balance := start, total_bets := 0, winning_bets := 0, losing_bets := 0,
    total_winnings := 0, total_losses := 0, biggest_win := 0,
    biggest_loss := 0 }

/-- Ledger store holding a fresh user, a given games table, and no bets
or transactions yet. -/
def init_state (start : Money) (games : List Game) : SState :=
  { user := fresh_user start, games := games, bets := [],
    transactions := [], next_bet_id := 1 }

/-- The five status values `models.py` declares for a game (line 135)
and the synchronizer's status mapping produces (espn_service.py lines
303 to 312). -/
def game_status_values : List String :=
  ["scheduled", "in_progress", "final", "postponed", "cancelled"]

/-- A bet status is terminal-settled when it records a won, lost or
push outcome. -/
def is_settled_status (st : String) : Bool :=
  st == "won" || st == "lost" || st == "push"

/-- The bet with this id exists and carries a settled outcome. -/
def bet_settled (s : SState) (bid : Nat) : Prop :=
  ∃ b, findBet s bid = some b ∧ is_settled_status b.status = true

/-- The bet with this id is pending and its game is final: the
precondition under which the settlement pass must resolve it. -/
def pending_final (s : SState) (bid : Nat) : Prop :=
  ∃ b g, findBet s bid = some b ∧ b.status = "pending" ∧
    findGame s b.game_id = some g ∧ g.status = "final"

/-! ## Helper lemmas -/

theorem update_user_after_settlement_balance (u : User) (b : Bet)
    (o : String) (p : Money) :
    (update_user_after_settlement u b o p).balance = u.balance + p := by
  unfold update_user_after_settlement
  simp only []
  split_ifs <;> rfl

theorem update_user_after_settlement_winning (u : User) (b : Bet)
    (o : String) (p : Money) :
    (update_user_after_settlement u b o p).winning_bets =
      u.winning_bets + (if o = "won" then 1 else 0) := by
  unfold update_user_after_settlement
  simp only []
  split_ifs <;> rfl

theorem update_user_after_settlement_losing (u : User) (b : Bet)
    (o : String) (p : Money) :
    (update_user_after_settlement u b o p).losing_bets =
      u.losing_bets + (if o = "lost" then 1 else 0) := by
  unfold update_user_after_settlement
  simp only []
  split_ifs <;> simp_all

theorem update_user_after_settlement_total (u : User) (b : Bet)
    (o : String) (p : Money) :
    (update_user_after_settlement u b o p).total_bets = u.total_bets := by
  unfold update_user_after_settlement
  simp only []
  split_ifs <;> rfl

theorem update_user_after_settlement_biggest_win (u : User) (b : Bet)
    (p : Money) :
    (update_user_after_settlement u b "won" p).biggest_win =
      if p > u.biggest_win then p else u.biggest_win := by
  unfold update_user_after_settlement
  simp only []
  split_ifs <;> simp_all

theorem update_user_after_settlement_biggest_loss (u : User) (b : Bet)
    (p : Money) :
    (update_user_after_settlement u b "lost" p).biggest_loss =
      if b.wager_amount > u.biggest_loss then b.wager_amount
      else u.biggest_loss := by
  unfold update_user_after_settlement
  simp only []
  split_ifs <;> simp_all

theorem determine_bet_outcome_settled (g : Game) (b : Bet) :
    is_settled_status (determine_bet_outcome g b) = true := by
  unfold determine_bet_outcome is_settled_status
  split_ifs <;> rfl

theorem determine_bet_outcome_ne_pending (g : Game) (b : Bet) :
    determine_bet_outcome g b ≠ "pending" := by
  unfold determine_bet_outcome
  split_ifs <;> decide

theorem settled_status_ne_pending (st : String)
    (h : is_settled_status st = true) : st ≠ "pending" := by
  unfold is_settled_status at h
  rcases Bool.or_eq_true_iff.mp h with h' | h''
  · rcases Bool.or_eq_true_iff.mp h' with h1 | h2
    · simp_all [beq_iff_eq]
    · simp_all [beq_iff_eq]
  · simp_all [beq_iff_eq]

theorem setBet_length (l : List Bet) (bid : Nat) (nb : Bet) :
    (setBet l bid nb).length = l.length := by
  induction l with
  | nil => rfl
  | cons b bs ih =>
    unfold setBet
    split <;> simp [ih]

theorem setBet_countP (l : List Bet) (bid : Nat) (nb b : Bet)
    (q : Bet → Bool) (h : l.find? (fun x => x.id == bid) = some b) :
    (setBet l bid nb).countP q + (if q b then 1 else 0)
      = l.countP q + (if q nb then 1 else 0) := by
  induction l with
  | nil => simp at h
  | cons hd tl ih =>
    unfold setBet
    simp only [List.find?] at h
    by_cases hb : (hd.id == bid) = true
    · rw [hb] at h
      simp only at h
      injection h with h
      subst h
      simp only [hb, if_true, List.countP_cons]
      split_ifs <;> omega
    · rw [Bool.not_eq_true] at hb
      rw [hb] at h
      simp only at h
      simp only [hb, Bool.false_eq_true, if_false, List.countP_cons]
      have := ih h
      split_ifs at this ⊢ <;> omega

theorem find?_setBet_self (l : List Bet) (bid : Nat) (nb b : Bet)
    (h : l.find? (fun x => x.id == bid) = some b) (hnb : (nb.id == bid) = true) :
    (setBet l bid nb).find? (fun x => x.id == bid) = some nb := by
  induction l with
  | nil => simp at h
  | cons hd tl ih =>
    unfold setBet
    simp only [List.find?] at h
    by_cases hb : (hd.id == bid) = true
    · simp only [hb, if_true, List.find?, hnb]
    · rw [Bool.not_eq_true] at hb
      rw [hb] at h
      simp only at h
      simp only [hb, Bool.false_eq_true, if_false, List.find?]
      exact ih h

theorem find?_setBet_other (l : List Bet) (bid bid' : Nat) (nb b : Bet)
    (h : l.find? (fun x => x.id == bid) = some b) (hid : nb.id = b.id)
    (hne : bid' ≠ bid) :
    (setBet l bid nb).find? (fun x => x.id == bid')
      = l.find? (fun x => x.id == bid') := by
  induction l with
  | nil => simp at h
  | cons hd tl ih =>
    unfold setBet
    simp only [List.find?] at h
    by_cases hb : (hd.id == bid) = true
    · rw [hb] at h
      simp only at h
      injection h with h
      subst h
      have hdid : hd.id = bid := beq_iff_eq.mp hb
      have h1 : (hd.id == bid') = false := by
        simp only [beq_eq_false_iff_ne, ne_eq, hdid]
        omega
      have h2 : (nb.id == bid') = false := by
        simp only [beq_eq_false_iff_ne, ne_eq, hid, hdid]
        omega
      simp only [hb, if_true, List.find?, h1, h2]
    · rw [Bool.not_eq_true] at hb
      rw [hb] at h
      simp only at h
      simp only [hb, Bool.false_eq_true, if_false, List.find?]
      by_cases hh : (hd.id == bid') = true
      · simp only [hh]
      · rw [Bool.not_eq_true] at hh
        simp only [hh]
        exact ih h

theorem settle_bet_eq (s : SState) (bid : Nat) (now : Int) (bet : Bet)
    (game : Game) (hb : findBet s bid = some bet)
    (hg : findGame s bet.game_id = some game)
    (hpend : bet.status = "pending") (hfin : game.status = "final") :
    settle_bet s bid now =
      (SettleResult.ok bid (determine_bet_outcome game bet)
         (calculate_payout bet (determine_bet_outcome game bet)),
       { s with
           bets := setBet s.bets bid
             { bet with status := determine_bet_outcome game bet,
                        actual_payout :=
                          calculate_payout bet (determine_bet_outcome game bet),
                        settled_at := some now },
           user := update_user_after_settlement s.user bet
             (determine_bet_outcome game bet)
             (calculate_payout bet (determine_bet_outcome game bet)),
           transactions := create_settlement_transaction
             (update_user_after_settlement s.user bet
               (determine_bet_outcome game bet)
               (calculate_payout bet (determine_bet_outcome game bet)))
             bet (determine_bet_outcome game bet)
             (calculate_payout bet (determine_bet_outcome game bet))
             :: s.transactions }) := by
  unfold settle_bet
  simp [hb, hg, hpend, hfin]

theorem settle_bet_ok_inv (s : SState) (bid : Nat) (now : Int)
    (h : ((settle_bet s bid now).1).success = true) :
    ∃ bet game, findBet s bid = some bet ∧
      findGame s bet.game_id = some game ∧
      bet.status = "pending" ∧ game.status = "final" := by
  unfold settle_bet at h
  rcases hb : findBet s bid with _ | bet
  · rw [hb] at h
    simp [SettleResult.success] at h
  · rw [hb] at h
    simp only at h
    rcases hg : findGame s bet.game_id with _ | game
    · rw [hg] at h
      simp [SettleResult.success] at h
    · rw [hg] at h
      simp only at h
      by_cases hpend : bet.status = "pending"
      · by_cases hfin : game.status = "final"
        · exact ⟨bet, game, rfl, hg, hpend, hfin⟩
        · simp [hpend, hfin, SettleResult.success] at h
      · simp [hpend, SettleResult.success] at h

theorem settle_bet_fail_frame (s : SState) (bid : Nat) (now : Int)
    (h : ((settle_bet s bid now).1).success = false) :
    (settle_bet s bid now).2 = s := by
  unfold settle_bet at h ⊢
  rcases hb : findBet s bid with _ | bet
  · rfl
  · rw [hb] at h
    simp only at h ⊢
    rcases hg : findGame s bet.game_id with _ | game
    · rfl
    · rw [hg] at h
      simp only at h ⊢
      by_cases hpend : bet.status = "pending"
      · by_cases hfin : game.status = "final"
        · simp [hpend, hfin, SettleResult.success] at h
        · simp [hpend, hfin]
      · simp [hpend]

theorem settle_bet_games (s : SState) (bid : Nat) (now : Int) :
    (settle_bet s bid now).2.games = s.games := by
  unfold settle_bet
  rcases hb : findBet s bid with _ | bet
  · rfl
  · simp only
    rcases hg : findGame s bet.game_id with _ | game
    · rfl
    · simp only
      split_ifs <;> rfl

theorem settle_bet_already (s : SState) (bid : Nat) (now : Int) (b : Bet)
    (g : Game) (hb : findBet s bid = some b)
    (hg : findGame s b.game_id = some g) (hst : b.status ≠ "pending") :
    settle_bet s bid now = (SettleResult.alreadySettled bid b.status, s) := by
  unfold settle_bet
  simp [hb, hg, hst]

theorem settle_bet_not_final (s : SState) (bid : Nat) (now : Int) (b : Bet)
    (g : Game) (hb : findBet s bid = some b)
    (hg : findGame s b.game_id = some g) (hpend : b.status = "pending")
    (hnf : g.status ≠ "final") :
    settle_bet s bid now = (SettleResult.gameNotFinal bid g.status, s) := by
  unfold settle_bet
  simp [hb, hg, hpend, hnf]

theorem settle_bet_other_bet (s : SState) (bid bid' : Nat) (now : Int)
    (hne : bid' ≠ bid) :
    findBet (settle_bet s bid now).2 bid' = findBet s bid' := by
  cases hsucc : ((settle_bet s bid now).1).success with
  | false => rw [settle_bet_fail_frame s bid now hsucc]
  | true =>
    obtain ⟨bet, game, hb, hg, hpend, hfin⟩ := settle_bet_ok_inv s bid now hsucc
    rw [settle_bet_eq s bid now bet game hb hg hpend hfin]
    unfold findBet
    simp only
    exact find?_setBet_other s.bets bid bid' _ bet hb rfl hne

theorem settle_bet_preserves_settled (s : SState) (bid bid' : Nat)
    (now : Int) (h : bet_settled s bid) :
    bet_settled (settle_bet s bid' now).2 bid := by
  by_cases he : bid = bid'
  · subst he
    obtain ⟨b, hb, hst⟩ := h
    cases hsucc : ((settle_bet s bid now).1).success with
    | false =>
      rw [settle_bet_fail_frame s bid now hsucc]
      exact ⟨b, hb, hst⟩
    | true =>
      obtain ⟨bet, game, hb2, hg, hpend, hfin⟩ := settle_bet_ok_inv s bid now hsucc
      rw [hb] at hb2
      cases hb2
      exact absurd hpend (settled_status_ne_pending _ hst)
  · obtain ⟨b, hb, hst⟩ := h
    refine ⟨b, ?_, hst⟩
    rw [settle_bet_other_bet s bid' bid now he]
    exact hb

theorem settle_list_cons (s : SState) (now : Int) (a : Nat) (ids : List Nat) :
    settle_list s now (a :: ids) =
      (if ((settle_bet s a now).1).success = true then
        (((settle_list (settle_bet s a now).2 now ids).1.1 + 1,
          (settle_list (settle_bet s a now).2 now ids).1.2),
         (settle_list (settle_bet s a now).2 now ids).2)
       else
        (((settle_list (settle_bet s a now).2 now ids).1.1,
          (settle_bet s a now).1 ::
            (settle_list (settle_bet s a now).2 now ids).1.2),
         (settle_list (settle_bet s a now).2 now ids).2)) := rfl

theorem settle_list_cons_state (s : SState) (now : Int) (a : Nat)
    (ids : List Nat) :
    (settle_list s now (a :: ids)).2
      = (settle_list (settle_bet s a now).2 now ids).2 := by
  rw [settle_list_cons]
  split_ifs <;> rfl

theorem settle_list_counts (now : Int) (ids : List Nat) : ∀ s : SState,
    (settle_list s now ids).1.1 + (settle_list s now ids).1.2.length
      = ids.length := by
  induction ids with
  | nil => intro s; rfl
  | cons a ids ih =>
    intro s
    rw [settle_list_cons]
    have := ih (settle_bet s a now).2
    split_ifs <;> dsimp only <;> simp only [List.length_cons] <;> omega

theorem settle_list_errors_failed (now : Int) (ids : List Nat) :
    ∀ (s : SState) (r : SettleResult), r ∈ (settle_list s now ids).1.2 →
      r.success = false := by
  induction ids with
  | nil => intro s r h; simp [settle_list] at h
  | cons a ids ih =>
    intro s r h
    rw [settle_list_cons] at h
    by_cases hsucc : ((settle_bet s a now).1).success = true
    · rw [if_pos hsucc] at h
      exact ih _ r h
    · rw [if_neg hsucc] at h
      rw [Bool.not_eq_true] at hsucc
      rcases List.mem_cons.mp h with h | h
      · subst h
        exact hsucc
      · exact ih _ r h

theorem settle_list_preserves_settled (now : Int) (ids : List Nat) :
    ∀ (s : SState) (bid : Nat), bet_settled s bid →
      bet_settled (settle_list s now ids).2 bid := by
  induction ids with
  | nil => intro s bid h; exact h
  | cons a ids ih =>
    intro s bid h
    rw [settle_list_cons_state]
    exact ih _ bid (settle_bet_preserves_settled s bid a now h)

theorem settle_list_settles (now : Int) (ids : List Nat) :
    ∀ (s : SState) (bid : Nat), bid ∈ ids → pending_final s bid →
      bet_settled (settle_list s now ids).2 bid := by
  induction ids with
  | nil => intro s bid h; simp at h
  | cons a ids ih =>
    intro s bid hmem hpf
    rw [settle_list_cons_state]
    by_cases he : bid = a
    · subst he
      obtain ⟨b, g, hb, hp, hg, hf⟩ := hpf
      have heq := settle_bet_eq s bid now b g hb hg hp hf
      have hfind : findBet (settle_bet s bid now).2 bid
          = some { b with status := determine_bet_outcome g b,
                          actual_payout :=
                            calculate_payout b (determine_bet_outcome g b),
                          settled_at := some now } := by
        rw [heq]
        unfold findBet
        simp only
        have hb2 : s.bets.find? (fun x => x.id == bid) = some b := hb
        have hida : (b.id == bid) = true := by
          have h5 := List.find?_some hb2
          exact h5
        exact find?_setBet_self s.bets bid _ b hb hida
      have hsettled : bet_settled (settle_bet s bid now).2 bid :=
        ⟨_, hfind, determine_bet_outcome_settled g b⟩
      exact settle_list_preserves_settled now ids _ bid hsettled
    · rcases List.mem_cons.mp hmem with h | h
      · exact absurd h he
      · apply ih _ bid h
        obtain ⟨b, g, hb, hp, hg, hf⟩ := hpf
        refine ⟨b, g, ?_, hp, ?_, hf⟩
        · rw [settle_bet_other_bet s a bid now he]
          exact hb
        · unfold findGame
          rw [settle_bet_games]
          exact hg

theorem calculate_payout_won (b : Bet) :
    calculate_payout b "won" = b.potential_payout := rfl

theorem calculate_payout_push (b : Bet) :
    calculate_payout b "push" = b.wager_amount := rfl

theorem calculate_payout_lost (b : Bet) :
    calculate_payout b "lost" = 0 := rfl

def exGame : Game :=
  { id := 1, home_team := "Packers", away_team := "Bears", game_time := 1000,
    status := "final", winner := some "Packers", is_tie := false,
    total_bets := 1, total_wagered := 100, home_bets := 1, away_bets := 0,
    home_wagered := 100, away_wagered := 0 }

def exBet : Bet :=
  { id := 1, game_id := 1, team_picked := "Packers", wager_amount := 100,
    potential_payout := 200, actual_payout := 0, status := "pending",
    settled_at := none }

def exUser : User :=
  { balance := 900, total_bets := 1, winning_bets := 0, losing_bets := 0,
    total_winnings := 0, total_losses := 0, biggest_win := 0,
    biggest_loss := 0 }

def exState : SState :=
  { user := exUser, games := [exGame], bets := [exBet],
    transactions := [], next_bet_id := 2 }

/-- C1: settling a pending bet on a final game determines the outcome as
push when the game is a tie or its winner is null, won when the team
picked equals the winner, and lost otherwise; and the user's balance
afterwards equals balance before plus the potential payout for won, plus
the wager amount for push, and is unchanged for lost. -/
theorem settled_outcome_and_balance (s : SState) (bid : Nat) (now : Int)
    (bet : Bet) (game : Game)
    (hb : findBet s bid = some bet)
    (hg : findGame s bet.game_id = some game)
    (hpend : bet.status = "pending") (hfin : game.status = "final") :
    (settle_bet s bid now).1 =
      SettleResult.ok bid (determine_bet_outcome game bet)
        (calculate_payout bet (determine_bet_outcome game bet)) ∧
    determine_bet_outcome game bet =
      (if game.is_tie ∨ game.winner = none then "push"
       else if some bet.team_picked = game.winner then "won" else "lost") ∧
    (determine_bet_outcome game bet = "won" →
      (settle_bet s bid now).2.user.balance
        = s.user.balance + bet.potential_payout) ∧
    (determine_bet_outcome game bet = "push" →
      (settle_bet s bid now).2.user.balance
        = s.user.balance + bet.wager_amount) ∧
    (determine_bet_outcome game bet = "lost" →
      (settle_bet s bid now).2.user.balance = s.user.balance) := by
  have heq := settle_bet_eq s bid now bet game hb hg hpend hfin
  refine ⟨by rw [heq], rfl, ?_, ?_, ?_⟩ <;> intro hout <;> rw [heq] <;>
    simp only [update_user_after_settlement_balance, hout,
      calculate_payout_won, calculate_payout_push, calculate_payout_lost,
      add_zero]

theorem settled_outcome_and_balance_witness :
    (settle_bet exState 1 5).1 = SettleResult.ok 1 "won" 200 ∧
    (settle_bet exState 1 5).2.user.balance = 1100 := by
  have h := settled_outcome_and_balance exState 1 5 exBet exGame rfl rfl
    rfl rfl
  have hdet : determine_bet_outcome exGame exBet = "won" := rfl
  constructor
  · rw [h.1, hdet, calculate_payout_won]
    rfl
  · have hbal := h.2.2.1 hdet
    rw [hbal]
    norm_num [exState, exUser, exBet]


/-- C2: after a successful settlement of a bet, settling the same bet a
second time returns the already-settled state-conflict error and leaves
the entire state (hence the user's balance and the bet) unchanged; and
settling a pending bet whose game is not yet final is rejected with the
not-final error and no mutation. -/
theorem settle_twice_and_final_guard (s : SState) (bid : Nat) (t1 t2 : Int)
    (h : ((settle_bet s bid t1).1).success = true) :
    (∃ st, (settle_bet (settle_bet s bid t1).2 bid t2).1
        = SettleResult.alreadySettled bid st ∧ is_settled_status st = true) ∧
    (settle_bet (settle_bet s bid t1).2 bid t2).2 = (settle_bet s bid t1).2 ∧
    (∀ (s0 : SState) (b : Bet) (g : Game), findBet s0 bid = some b →
       findGame s0 b.game_id = some g → b.status = "pending" →
       g.status ≠ "final" →
       (settle_bet s0 bid t2).1 = SettleResult.gameNotFinal bid g.status ∧
       (settle_bet s0 bid t2).2 = s0) := by
  obtain ⟨bet, game, hb, hg, hpend, hfin⟩ := settle_bet_ok_inv s bid t1 h
  have heq := settle_bet_eq s bid t1 bet game hb hg hpend hfin
  have hfind : findBet (settle_bet s bid t1).2 bid
      = some { bet with status := determine_bet_outcome game bet,
                        actual_payout :=
                          calculate_payout bet (determine_bet_outcome game bet),
                        settled_at := some t1 } := by
    rw [heq]
    unfold findBet
    simp only
    have hb2 : s.bets.find? (fun x => x.id == bid) = some bet := hb
    have hida : (bet.id == bid) = true := by
      have h5 := List.find?_some hb2
      exact h5
    exact find?_setBet_self s.bets bid _ bet hb hida
  have hgames : findGame (settle_bet s bid t1).2 bet.game_id = some game := by
    unfold findGame
    rw [settle_bet_games]
    exact hg
  have halready := settle_bet_already (settle_bet s bid t1).2 bid t2 _ game
    hfind hgames (determine_bet_outcome_ne_pending game bet)
  refine ⟨⟨determine_bet_outcome game bet, ?_, determine_bet_outcome_settled game bet⟩,
          ?_, ?_⟩
  · rw [halready]
  · rw [halready]
  · intro s0 b g hb0 hg0 hp0 hnf0
    have hnff := settle_bet_not_final s0 bid t2 b g hb0 hg0 hp0 hnf0
    exact ⟨by rw [hnff], by rw [hnff]⟩

def exGameSched : Game :=
  { id := 1, home_team := "Packers", away_team := "Bears", game_time := 1000,
    status := "scheduled", winner := none, is_tie := false,
    total_bets := 1, total_wagered := 100, home_bets := 1, away_bets := 0,
    home_wagered := 100, away_wagered := 0 }

def exStateSched : SState :=
  { user := exUser, games := [exGameSched], bets := [exBet],
    transactions := [], next_bet_id := 2 }

theorem settle_twice_and_final_guard_witness :
    ((settle_bet exState 1 5).1).success = true ∧
    (settle_bet (settle_bet exState 1 5).2 1 6).1
      = SettleResult.alreadySettled 1 "won" ∧
    (settle_bet (settle_bet exState 1 5).2 1 6).2
      = (settle_bet exState 1 5).2 ∧
    (settle_bet exStateSched 1 6).1
      = SettleResult.gameNotFinal 1 "scheduled" ∧
    (settle_bet exStateSched 1 6).2 = exStateSched := by
  have heq := settle_bet_eq exState 1 5 exBet exGame rfl rfl rfl rfl
  have hsucc : ((settle_bet exState 1 5).1).success = true := by
    rw [heq]
    rfl
  obtain ⟨hex, hstate, hguard⟩ :=
    settle_twice_and_final_guard exState 1 5 6 hsucc
  have hguard2 := hguard exStateSched exBet exGameSched rfl rfl rfl (by decide)
  refine ⟨hsucc, ?_, hstate, hguard2.1, hguard2.2⟩
  have hfind : findBet (settle_bet exState 1 5).2 1
      = some { exBet with
                 status := "won"
                 actual_payout := 200
                 settled_at := some 5 } := by
    rw [heq]
    rfl
  have hgames : findGame (settle_bet exState 1 5).2 1 = some exGame := by
    unfold findGame
    rw [settle_bet_games]
    rfl
  have h2 := settle_bet_already (settle_bet exState 1 5).2 1 6 _ exGame
    hfind hgames (by decide)
  rw [h2]

/-- C6 as amended: on a won settlement, biggestWin is updated exactly
when the gross payout (the potential payout credited) exceeds the prior
biggestWin, and it is set to that gross payout (not the net gain); on a
lost settlement, biggestLoss is updated exactly when the wager amount
exceeds the prior biggestLoss, and it is set to the wager amount. -/
theorem biggest_win_loss_update (s : SState) (bid : Nat) (now : Int)
    (bet : Bet) (game : Game)
    (hb : findBet s bid = some bet)
    (hg : findGame s bet.game_id = some game)
    (hpend : bet.status = "pending") (hfin : game.status = "final") :
    (determine_bet_outcome game bet = "won" →
       (settle_bet s bid now).2.user.biggest_win =
         (if bet.potential_payout > s.user.biggest_win
          then bet.potential_payout else s.user.biggest_win)) ∧
    (determine_bet_outcome game bet = "lost" →
       (settle_bet s bid now).2.user.biggest_loss =
         (if bet.wager_amount > s.user.biggest_loss
          then bet.wager_amount else s.user.biggest_loss)) := by
  have heq := settle_bet_eq s bid now bet game hb hg hpend hfin
  constructor <;> intro hout <;> rw [heq] <;> simp only [hout]
  · rw [calculate_payout_won]
    exact update_user_after_settlement_biggest_win s.user bet
      bet.potential_payout
  · rw [calculate_payout_lost]
    exact update_user_after_settlement_biggest_loss s.user bet 0

def c6User : User :=
  { balance := 900, total_bets := 1, winning_bets := 0, losing_bets := 0,
    total_winnings := 0, total_losses := 0, biggest_win := 150,
    biggest_loss := 0 }

def c6State : SState :=
  { user := c6User, games := [exGame], bets := [exBet],
    transactions := [], next_bet_id := 2 }

/-- C6 counterexample: a won settlement with payout 200 and wager 100
against a prior biggestWin of 150. The net gain is 100, which does not
exceed 150, so the claim says biggestWin stays 150 (and, if it were ever
updated, it would be set to the net gain); the code instead compares the
gross payout 200 against 150 and sets biggestWin to 200. -/
theorem biggest_win_uses_gross_payout :
    (settle_bet c6State 1 5).1 = SettleResult.ok 1 "won" 200 ∧
    c6State.user.biggest_win = 150 ∧
    exBet.potential_payout - exBet.wager_amount = 100 ∧
    ((100 : Money) < 150) ∧
    (settle_bet c6State 1 5).2.user.biggest_win = 200 := by
  have heq := settle_bet_eq c6State 1 5 exBet exGame rfl rfl rfl rfl
  refine ⟨by rw [heq]; rfl, rfl, by norm_num [exBet], by norm_num, ?_⟩
  rw [heq]
  simp only
  rw [show determine_bet_outcome exGame exBet = "won" from rfl,
      calculate_payout_won,
      update_user_after_settlement_biggest_win c6State.user exBet
        exBet.potential_payout]
  norm_num [exBet, c6State, c6User]

theorem biggest_win_loss_update_witness :
    determine_bet_outcome exGame exBet = "won" ∧
    (settle_bet c6State 1 5).2.user.biggest_win =
      (if exBet.potential_payout > c6State.user.biggest_win
       then exBet.potential_payout else c6State.user.biggest_win) :=
  ⟨rfl,
   (biggest_win_loss_update c6State 1 5 exBet exGame rfl rfl rfl rfl).1 rfl⟩

theorem lt_fin_iff (a b : ℚ) :
    PyFloat.lt (PyFloat.fin a) (PyFloat.fin b) = true ↔ a < b := by
  simp [PyFloat.lt]

theorem le_fin_iff (a b : ℚ) :
    PyFloat.le (PyFloat.fin a) (PyFloat.fin b) = true ↔ a ≤ b := by
  simp [PyFloat.le, PyFloat.lt, le_iff_lt_or_eq]

theorem is_bettable_iff (g : Game) (now : Int) :
    g.is_bettable now = true ↔
      (g.status = "scheduled" ∧ now < g.game_time - 300) := by
  simp [Game.is_bettable, minutes5]

theorem bs_timing_iff (g : Game) (now : Int) :
    BetService.validate_game_timing g now = true ↔
      (now < g.game_time - 300 ∧
       (g.status = "scheduled" ∨ g.status = "pre")) := by
  unfold BetService.validate_game_timing minutes5
  split_ifs with h1 h2 h3
  · simp only [Bool.false_eq_true, false_iff]
    rintro ⟨ha, _⟩
    omega
  · simp only [Bool.false_eq_true, false_iff]
    rintro ⟨ha, _⟩
    omega
  · exact iff_of_true (by trivial) ⟨by omega, h3⟩
  · simp only [Bool.false_eq_true, false_iff]
    rintro ⟨_, hb⟩
    exact h3 hb

/-- C3: a game admits bets exactly when its status is `scheduled` and
the current time is strictly earlier than gameTime minus 5 minutes; at
exactly 5 minutes before gameTime the game is not bettable, and at 5
minutes plus one second before gameTime it is bettable. `Game.is_bettable`
(used by bet_validator.py's timing check) satisfies this outright; the
bet_service.py timing check also accepts the status string `pre`, which
is not one of the five status values models.py declares and the
synchronizer produces, so over games carrying a declared status it too
accepts exactly the claimed set. -/
theorem bettable_cutoff (g : Game) (now : Int) :
    (g.is_bettable now = true ↔
       (g.status = "scheduled" ∧ now < g.game_time - 300)) ∧
    (BetValidatorSvc.validate_game_timing g now = g.is_bettable now) ∧
    (g.status ∈ game_status_values →
       (BetService.validate_game_timing g now = true ↔
          (g.status = "scheduled" ∧ now < g.game_time - 300))) ∧
    (g.status = "scheduled" →
       (g.is_bettable (g.game_time - 300) = false ∧
        g.is_bettable (g.game_time - 301) = true ∧
        BetService.validate_game_timing g (g.game_time - 300) = false ∧
        BetService.validate_game_timing g (g.game_time - 301) = true)) := by
  refine ⟨is_bettable_iff g now, rfl, ?_, ?_⟩
  · intro hmem
    simp only [game_status_values, List.mem_cons, List.not_mem_nil,
      or_false] at hmem
    constructor
    · intro hv
      obtain ⟨ht, hst⟩ := (bs_timing_iff g now).mp hv
      rcases hst with hs | hs
      · exact ⟨hs, ht⟩
      · rcases hmem with h | h | h | h | h <;> rw [h] at hs <;>
          exact absurd hs (by decide)
    · rintro ⟨hs, ht⟩
      exact (bs_timing_iff g now).mpr ⟨ht, Or.inl hs⟩
  · intro hs
    refine ⟨?_, ?_, ?_, ?_⟩
    · cases hb : g.is_bettable (g.game_time - 300) with
      | false => rfl
      | true => exact absurd ((is_bettable_iff g _).mp hb).2 (by omega)
    · exact (is_bettable_iff g _).mpr ⟨hs, by omega⟩
    · cases hb : BetService.validate_game_timing g (g.game_time - 300) with
      | false => rfl
      | true => exact absurd ((bs_timing_iff g _).mp hb).1 (by omega)
    · exact (bs_timing_iff g _).mpr ⟨by omega, Or.inl hs⟩

theorem bettable_cutoff_witness :
    exGameSched.status ∈ game_status_values ∧
    exGameSched.status = "scheduled" ∧
    (BetService.validate_game_timing exGameSched 0 = true ↔
       (exGameSched.status = "scheduled" ∧ (0 : Int) < exGameSched.game_time - 300)) ∧
    exGameSched.is_bettable (exGameSched.game_time - 300) = false ∧
    exGameSched.is_bettable (exGameSched.game_time - 301) = true ∧
    BetService.validate_game_timing exGameSched (exGameSched.game_time - 300)
      = false ∧
    BetService.validate_game_timing exGameSched (exGameSched.game_time - 301)
      = true := by
  have h := bettable_cutoff exGameSched 0
  have hmem : exGameSched.status ∈ game_status_values := by decide
  have hb := h.2.2.2 rfl
  exact ⟨hmem, rfl, h.2.2.1 hmem, hb.1, hb.2.1, hb.2.2.1, hb.2.2.2⟩


/-- C8 counterexample: the claim says every non-finite amount, NaN in
particular, is rejected; but every float comparison against NaN is
false, so NaN falls through all three rejection checks of both
validators and is accepted, even for a user with a positive balance and
a positive configured minimum. -/
theorem nan_wager_accepted :
    BetService.validate_bet_amount 1 exUser PyFloat.nan = true ∧
    BetValidatorSvc.validate_bet_amount exUser (some PyFloat.nan) = true ∧
    (0 : Money) < 1 ∧ (0 : Money) < exUser.balance := by
  refine ⟨rfl, rfl, by norm_num, by norm_num [exUser]⟩

/-- C8 as amended: the amount validation accepts exactly the amounts
that fail all three rejection comparisons. For finite amounts this is
the claimed set: bet_service.py accepts a finite amount exactly when it
is positive, at least the configured minimum, and at most the user's
balance (bet_validator.py's variant performs no minimum check). NaN,
however, is accepted by both validators because every comparison with
NaN is false, while infinity is rejected by the balance comparison and a
missing amount is rejected. -/
theorem amount_validation_semantics (min_bet : Money) (u : User) (q : ℚ) :
    (BetService.validate_bet_amount min_bet u (PyFloat.fin q) = true ↔
       (0 < q ∧ min_bet ≤ q ∧ q ≤ u.balance)) ∧
    BetService.validate_bet_amount min_bet u PyFloat.nan = true ∧
    BetService.validate_bet_amount min_bet u PyFloat.inf = false ∧
    (BetValidatorSvc.validate_bet_amount u (some (PyFloat.fin q)) = true ↔
       (0 < q ∧ q ≤ u.balance)) ∧
    BetValidatorSvc.validate_bet_amount u (some PyFloat.nan) = true ∧
    BetValidatorSvc.validate_bet_amount u none = false := by
  refine ⟨?_, rfl, rfl, ?_, rfl, rfl⟩
  · unfold BetService.validate_bet_amount
    split_ifs with h1 h2 h3
    · rw [le_fin_iff] at h1
      simp only [Bool.false_eq_true, false_iff]
      rintro ⟨ha, _, _⟩
      linarith
    · rw [lt_fin_iff] at h2
      simp only [Bool.false_eq_true, false_iff]
      rintro ⟨_, hb, _⟩
      linarith
    · rw [lt_fin_iff] at h3
      simp only [Bool.false_eq_true, false_iff]
      rintro ⟨_, _, hc⟩
      linarith
    · rw [le_fin_iff] at h1
      rw [lt_fin_iff] at h2
      rw [lt_fin_iff] at h3
      exact iff_of_true rfl ⟨by linarith, by linarith, by linarith⟩
  · unfold BetValidatorSvc.validate_bet_amount
    simp only
    split_ifs with h1 h2
    · rw [le_fin_iff] at h1
      simp only [Bool.false_eq_true, false_iff]
      rintro ⟨ha, _⟩
      linarith
    · rw [lt_fin_iff] at h2
      simp only [Bool.false_eq_true, false_iff]
      rintro ⟨_, hb⟩
      linarith
    · rw [le_fin_iff] at h1
      rw [lt_fin_iff] at h2
      exact iff_of_true rfl ⟨by linarith, by linarith⟩

def pState : SState :=
  { user := exUser, games := [exGameSched], bets := [], transactions := [],
    next_bet_id := 1 }

/-- C10: every Transaction record created by placement (through the full
bet_validator.py placement path) or by settlement satisfies
balance_after = balance_before + amount, and its balance_after equals
the user's balance at the moment the transaction is recorded (the
balance in the committed state, which is not further mutated within the
operation). -/
theorem transaction_coherence :
    (∀ (s : SState) (gid : Nat) (team : String) (wager : Money) (now : Int),
       ((BetValidatorSvc.validate_and_create_bet s gid team wager now).1).isSome
           = true →
       ∃ t, (BetValidatorSvc.validate_and_create_bet s gid team wager now).2.transactions
           = t :: s.transactions ∧
         t.type = "bet_placed" ∧
         t.balance_after = t.balance_before + t.amount ∧
         t.balance_after =
           (BetValidatorSvc.validate_and_create_bet s gid team wager now).2.user.balance) ∧
    (∀ (s : SState) (bid : Nat) (now : Int),
       ((settle_bet s bid now).1).success = true →
       ∃ t, (settle_bet s bid now).2.transactions = t :: s.transactions ∧
         t.balance_after = t.balance_before + t.amount ∧
         t.balance_after = (settle_bet s bid now).2.user.balance) := by
  constructor
  · intro s gid team wager now hok
    unfold BetValidatorSvc.validate_and_create_bet at hok ⊢
    by_cases hv : BetValidatorSvc.validate_bet s gid team
        (some (PyFloat.fin wager)) now = true
    · rw [if_pos hv] at hok ⊢
      unfold BetValidatorSvc.create_bet at hok ⊢
      rcases hfg : findGame s gid with _ | g
      · rw [hfg] at hok
        simp at hok
      · dsimp only
        refine ⟨_, rfl, rfl, ?_, rfl⟩
        dsimp only
        ring
    · rw [if_neg hv] at hok
      simp at hok
  · intro s bid now hok
    obtain ⟨bet, game, hb, hg, hpend, hfin⟩ := settle_bet_ok_inv s bid now hok
    have heq := settle_bet_eq s bid now bet game hb hg hpend hfin
    rw [heq]
    refine ⟨_, rfl, ?_, rfl⟩
    unfold create_settlement_transaction
    simp only
    ring


theorem transaction_coherence_witness :
    ((BetValidatorSvc.validate_and_create_bet pState 1 "Packers" 100 0).1).isSome
        = true ∧
    ((settle_bet exState 1 5).1).success = true ∧
    ((BetValidatorSvc.validate_and_create_bet pState 1 "Packers" 100 0).2.transactions.head?).map
        (fun t => (t.balance_after == t.balance_before + t.amount) &&
          (t.balance_after ==
            (BetValidatorSvc.validate_and_create_bet pState 1 "Packers" 100 0).2.user.balance))
      = some true ∧
    ((settle_bet exState 1 5).2.transactions.head?).map
        (fun t => (t.balance_after == t.balance_before + t.amount) &&
          (t.balance_after == (settle_bet exState 1 5).2.user.balance))
      = some true := by
  have hok1 : ((BetValidatorSvc.validate_and_create_bet pState 1 "Packers"
      100 0).1).isSome = true := by
    norm_num [BetValidatorSvc.validate_and_create_bet,
      BetValidatorSvc.validate_bet, BetValidatorSvc.validate_bet_amount,
      BetValidatorSvc.validate_game_timing, BetValidatorSvc.create_bet,
      Game.is_bettable, minutes5, validate_team_selection, has_pending_bet,
      findGame, pState, exGameSched, exUser, PyFloat.le, PyFloat.lt]
    rw [if_neg (by decide)]
    rfl
  have hok2 : ((settle_bet exState 1 5).1).success = true := by
    rw [settle_bet_eq exState 1 5 exBet exGame rfl rfl rfl rfl]
    rfl
  obtain ⟨t1, ht1, _, ht2, ht3⟩ :=
    transaction_coherence.1 pState 1 "Packers" 100 0 hok1
  obtain ⟨t2, hs1, hs2, hs3⟩ := transaction_coherence.2 exState 1 5 hok2
  refine ⟨hok1, hok2, ?_, ?_⟩
  · rw [ht1]
    simp [← ht2, ← ht3]
  · rw [hs1]
    simp [← hs2, ← hs3]


/-- C5 as amended: for every valid placement of wager W through
bet_validator.py's `validate_and_create_bet`, the user's balance
afterwards equals balance before minus W, and exactly one `bet_placed`
Transaction with amount equal to minus W referencing the new bet exists
(provided no prior transaction referenced the fresh bet id); placements
through bet_service.py's `create_bet` (the betting-route path) debit the
balance but record no Transaction at all. -/
theorem placement_balance_and_transaction (s : SState) (gid : Nat)
    (team : String) (wager : Money) (now : Int)
    (hok : ((BetValidatorSvc.validate_and_create_bet s gid team wager now).1).isSome = true)
    (hfresh : ∀ t ∈ s.transactions, t.bet_id ≠ some s.next_bet_id) :
    (BetValidatorSvc.validate_and_create_bet s gid team wager now).2.user.balance
      = s.user.balance - wager ∧
    (BetValidatorSvc.validate_and_create_bet s gid team wager now).2.transactions.countP
        (fun t => t.type == "bet_placed" && t.amount == -wager &&
          t.bet_id == some s.next_bet_id) = 1 := by
  unfold BetValidatorSvc.validate_and_create_bet at hok ⊢
  by_cases hv : BetValidatorSvc.validate_bet s gid team
      (some (PyFloat.fin wager)) now = true
  · rw [if_pos hv] at hok ⊢
    unfold BetValidatorSvc.create_bet at hok ⊢
    rcases hfg : findGame s gid with _ | g
    · rw [hfg] at hok
      simp at hok
    · dsimp only
      refine ⟨rfl, ?_⟩
      rw [List.countP_cons_of_pos]
      · rw [Nat.add_left_eq_self]
        rw [List.countP_eq_zero]
        intro t ht
        simp only [Bool.and_eq_true, beq_iff_eq]
        rintro ⟨⟨-, -⟩, hbid⟩
        exact hfresh t ht hbid
      · simp
  · rw [if_neg hv] at hok
    simp at hok

theorem placement_balance_and_transaction_witness :
    ((BetValidatorSvc.validate_and_create_bet pState 1 "Packers" 100 0).1).isSome
        = true ∧
    (BetValidatorSvc.validate_and_create_bet pState 1 "Packers" 100 0).2.user.balance
      = pState.user.balance - 100 ∧
    (BetValidatorSvc.validate_and_create_bet pState 1 "Packers" 100 0).2.transactions.countP
        (fun t => t.type == "bet_placed" && t.amount == -(100 : Money) &&
          t.bet_id == some pState.next_bet_id) = 1 := by
  have hok1 : ((BetValidatorSvc.validate_and_create_bet pState 1 "Packers"
      100 0).1).isSome = true := by
    norm_num [BetValidatorSvc.validate_and_create_bet,
      BetValidatorSvc.validate_bet, BetValidatorSvc.validate_bet_amount,
      BetValidatorSvc.validate_game_timing, BetValidatorSvc.create_bet,
      Game.is_bettable, minutes5, validate_team_selection, has_pending_bet,
      findGame, pState, exGameSched, exUser, PyFloat.le, PyFloat.lt]
    rw [if_neg (by decide)]
    rfl
  have h := placement_balance_and_transaction pState 1 "Packers" 100 0 hok1
    (by simp [pState])
  exact ⟨hok1, h.1, h.2⟩

/-- C5 counterexample: a valid placement through bet_service.py's
`create_bet` (the implementation the betting routes call) succeeds and
debits the wager, but its transactions table stays empty, so no
`bet_placed` Transaction with amount equal to minus the wager exists for
that placement. -/
theorem bet_service_placement_no_transaction :
    ((BetService.create_bet 1 2 pState 1 "Packers" 100 0).1).isSome = true ∧
    (BetService.create_bet 1 2 pState 1 "Packers" 100 0).2.user.balance
      = pState.user.balance - 100 ∧
    (BetService.create_bet 1 2 pState 1 "Packers" 100 0).2.transactions
      = [] := by
  norm_num [BetService.create_bet, BetService.validate_bet_comprehensive,
    BetService.validate_bet_amount, BetService.validate_game_timing,
    validate_team_selection, has_pending_bet, findGame, pState, exGameSched,
    exUser, PyFloat.le, PyFloat.lt, minutes5]
  rw [if_neg (show ¬("Packers" = "") from by decide)]
  exact ⟨rfl, rfl, rfl⟩


theorem find?_setGame_self (l : List Game) (gid : Nat) (ng g : Game)
    (h : l.find? (fun x => x.id == gid) = some g)
    (hng : (ng.id == gid) = true) :
    (setGame l gid ng).find? (fun x => x.id == gid) = some ng := by
  induction l with
  | nil => simp at h
  | cons hd tl ih =>
    unfold setGame
    simp only [List.find?] at h
    by_cases hb : (hd.id == gid) = true
    · simp only [hb, if_true, List.find?, hng]
    · rw [Bool.not_eq_true] at hb
      rw [hb] at h
      simp only at h
      simp only [hb, Bool.false_eq_true, if_false, List.find?]
      exact ih h

/-- C4 as amended: for every successful cancellation through
bet_validator.py's `cancel_bet`, the user's balance increases by exactly
the wager, winningBets and losingBets (and totalBets) are unchanged, and
the game's total and picked-side counters decrease by exactly the
amounts placement added (one bet and the wager on the picked side);
cancellations through bet_service.py's `cancel_bet` (the betting-route
path) refund the wager but leave the game's aggregate counters
untouched. -/
theorem cancellation_refund_and_rollback (s : SState) (bid : Nat) (now : Int)
    (bet : Bet) (game : Game)
    (hb : findBet s bid = some bet)
    (hg : findGame s bet.game_id = some game)
    (hok : (BetValidatorSvc.cancel_bet s bid now).1 = true) :
    (BetValidatorSvc.cancel_bet s bid now).2.user.balance
      = s.user.balance + bet.wager_amount ∧
    (BetValidatorSvc.cancel_bet s bid now).2.user.winning_bets
      = s.user.winning_bets ∧
    (BetValidatorSvc.cancel_bet s bid now).2.user.losing_bets
      = s.user.losing_bets ∧
    (BetValidatorSvc.cancel_bet s bid now).2.user.total_bets
      = s.user.total_bets ∧
    ∃ g', findGame (BetValidatorSvc.cancel_bet s bid now).2 bet.game_id
        = some g' ∧
      g'.total_bets = game.total_bets - 1 ∧
      g'.total_wagered = game.total_wagered - bet.wager_amount ∧
      (bet.team_picked = game.home_team →
         g'.home_bets = game.home_bets - 1 ∧
         g'.home_wagered = game.home_wagered - bet.wager_amount ∧
         g'.away_bets = game.away_bets ∧
         g'.away_wagered = game.away_wagered) ∧
      (bet.team_picked ≠ game.home_team →
         g'.away_bets = game.away_bets - 1 ∧
         g'.away_wagered = game.away_wagered - bet.wager_amount ∧
         g'.home_bets = game.home_bets ∧
         g'.home_wagered = game.home_wagered) := by
  have hgid : (game.id == bet.game_id) = true := by
    have hg2 : s.games.find? (fun x => x.id == bet.game_id) = some game := hg
    have h5 := List.find?_some hg2
    exact h5
  unfold BetValidatorSvc.cancel_bet at hok ⊢
  rw [hb] at hok ⊢
  simp only at hok ⊢
  by_cases hpend : bet.status = "pending"
  case neg =>
    rw [if_pos hpend] at hok
    simp at hok
  case pos =>
    rw [if_neg (not_not_intro hpend)] at hok ⊢
    rw [hg] at hok ⊢
    simp only at hok ⊢
    by_cases hallow : (if game.game_time ≤ now
        then Int.fdiv (now - game.game_time) 86400 > 1
        else now < game.game_time - minutes5)
    case neg =>
      rw [if_pos hallow] at hok
      simp at hok
    case pos =>
      rw [if_neg (not_not_intro hallow)] at hok ⊢
      refine ⟨rfl, rfl, rfl, rfl, ?_⟩
      by_cases hteam : (bet.team_picked == game.home_team) = true
      · rw [if_pos hteam]
        exact ⟨{ game with total_bets := game.total_bets - 1, total_wagered := game.total_wagered - bet.wager_amount, home_bets := game.home_bets - 1, home_wagered := game.home_wagered - bet.wager_amount }, by unfold findGame; simp only; exact find?_setGame_self s.games bet.game_id _ game hg hgid, rfl, rfl, fun _ => ⟨rfl, rfl, rfl, rfl⟩, fun hne => absurd (beq_iff_eq.mp hteam) hne⟩
      · rw [if_neg hteam]
        exact ⟨{ game with total_bets := game.total_bets - 1, total_wagered := game.total_wagered - bet.wager_amount, away_bets := game.away_bets - 1, away_wagered := game.away_wagered - bet.wager_amount }, by unfold findGame; simp only; exact find?_setGame_self s.games bet.game_id _ game hg hgid, rfl, rfl, fun heq => absurd (beq_iff_eq.mpr heq) hteam, fun _ => ⟨rfl, rfl, rfl, rfl⟩⟩


/-- C4 counterexample: a pending bet of 100 on the home team whose game
counters reflect the placement (one bet, 100 wagered on home) is
successfully cancelled through bet_service.py's `cancel_bet` at a time
well before the cutoff: the wager is refunded and win/loss counters are
untouched, but the game's counters remain at one bet and 100 wagered
instead of decreasing by the amounts added at placement. -/
theorem bet_service_cancel_keeps_counters :
    (BetService.cancel_bet exStateSched 1 0).1 = true ∧
    (BetService.cancel_bet exStateSched 1 0).2.user.balance
      = exStateSched.user.balance + 100 ∧
    (BetService.cancel_bet exStateSched 1 0).2.user.winning_bets
      = exStateSched.user.winning_bets ∧
    (BetService.cancel_bet exStateSched 1 0).2.user.losing_bets
      = exStateSched.user.losing_bets ∧
    findGame (BetService.cancel_bet exStateSched 1 0).2 1 = some exGameSched ∧
    exGameSched.total_bets = 1 ∧ exGameSched.home_bets = 1 ∧
    exGameSched.total_wagered = 100 ∧ exGameSched.home_wagered = 100 := by
  norm_num [BetService.cancel_bet, findBet, findGame, exStateSched, exBet,
    exGameSched, exUser, minutes5, setBet]

theorem cancellation_refund_and_rollback_witness :
    (BetValidatorSvc.cancel_bet exStateSched 1 0).1 = true ∧
    (BetValidatorSvc.cancel_bet exStateSched 1 0).2.user.balance = 1000 ∧
    (BetValidatorSvc.cancel_bet exStateSched 1 0).2.user.winning_bets = 0 ∧
    (BetValidatorSvc.cancel_bet exStateSched 1 0).2.user.losing_bets = 0 ∧
    ((findGame (BetValidatorSvc.cancel_bet exStateSched 1 0).2 1).map
        (fun g => (g.total_bets == 0) && (g.total_wagered == 0) &&
          (g.home_bets == 0) && (g.home_wagered == 0) &&
          (g.away_bets == 0) && (g.away_wagered == 0)))
      = some true := by
  have hok : (BetValidatorSvc.cancel_bet exStateSched 1 0).1 = true := by
    norm_num [BetValidatorSvc.cancel_bet, findBet, findGame, exStateSched,
      exBet, exGameSched, exUser, minutes5, setBet, setGame]
  obtain ⟨hbal, hwin, hlose, htot, g', hfind, h1, h2, himp1, himp2⟩ :=
    cancellation_refund_and_rollback exStateSched 1 0 exBet exGameSched
      rfl rfl hok
  obtain ⟨h3, h4, h5, h6⟩ := himp1 rfl
  refine ⟨hok, ?_, ?_, ?_, ?_⟩
  · rw [hbal]
    norm_num [exStateSched, exUser, exBet]
  · rw [hwin]
    rfl
  · rw [hlose]
    rfl
  · have hfind2 : findGame (BetValidatorSvc.cancel_bet exStateSched 1 0).2 1
        = some g' := hfind
    rw [hfind2]
    simp only [Option.map_some']
    norm_num [h1, h2, h3, h4, h5, h6, exGameSched, exBet]

theorem pending_final_mem_scan (s : SState) (bid : Nat)
    (h : pending_final s bid) :
    bid ∈ ((completed_games s).map (fun g => pending_bet_ids s g.id)).flatten := by
  obtain ⟨b, g, hb, hp, hg, hf⟩ := h
  have hb2 : s.bets.find? (fun x => x.id == bid) = some b := hb
  have hg2 : s.games.find? (fun x => x.id == b.game_id) = some g := hg
  have hbmem : b ∈ s.bets := List.mem_of_find?_eq_some hb2
  have hbid : (b.id == bid) = true := by
    have h5 := List.find?_some hb2
    exact h5
  have hgmem : g ∈ s.games := List.mem_of_find?_eq_some hg2
  have hgid : (g.id == b.game_id) = true := by
    have h5 := List.find?_some hg2
    exact h5
  rw [List.mem_flatten]
  refine ⟨pending_bet_ids s g.id, ?_, ?_⟩
  · rw [List.mem_map]
    refine ⟨g, ?_, rfl⟩
    unfold completed_games
    rw [List.mem_filter]
    refine ⟨hgmem, ?_⟩
    rw [Bool.and_eq_true]
    refine ⟨beq_iff_eq.mpr hf, ?_⟩
    rw [List.any_eq_true]
    refine ⟨b, hbmem, ?_⟩
    rw [Bool.and_eq_true]
    exact ⟨beq_iff_eq.mpr (beq_iff_eq.mp hgid).symm, beq_iff_eq.mpr hp⟩
  · unfold pending_bet_ids
    rw [List.mem_map]
    refine ⟨b, ?_, beq_iff_eq.mp hbid⟩
    rw [List.mem_filter]
    refine ⟨hbmem, ?_⟩
    rw [Bool.and_eq_true]
    exact ⟨beq_iff_eq.mpr (beq_iff_eq.mp hgid).symm, beq_iff_eq.mpr hp⟩

theorem settle_completed_games_def (s : SState) (now : Int) :
    settle_completed_games s now =
      ({ games_processed := (completed_games s).length,
         bets_settled := (settle_list s now
           ((completed_games s).map (fun g => pending_bet_ids s g.id)).flatten).1.1,
         errors := (settle_list s now
           ((completed_games s).map (fun g => pending_bet_ids s g.id)).flatten).1.2 },
       (settle_list s now
         ((completed_games s).map (fun g => pending_bet_ids s g.id)).flatten).2) := rfl

/-- C9: the settlement pass scans every pending bet of every final game
and attempts each one: the reported count of settled bets plus the
number of collected per-bet errors equals the number of scanned bets,
every collected error is a failed per-bet result, every bet that is
pending with a final game at scan time is settled by the pass, and, for
an arbitrary worklist of bet ids, a failure on one id never prevents the
settlement of any other id in the same pass. -/
theorem settlement_pass_isolation (s : SState) (now : Int) :
    ((settle_completed_games s now).1.bets_settled
        + (settle_completed_games s now).1.errors.length
      = ((completed_games s).map (fun g => pending_bet_ids s g.id)).flatten.length) ∧
    (∀ r ∈ (settle_completed_games s now).1.errors, r.success = false) ∧
    (∀ bid, pending_final s bid →
       bet_settled (settle_completed_games s now).2 bid) ∧
    (∀ (ids : List Nat) (bid : Nat), bid ∈ ids → pending_final s bid →
       bet_settled (settle_list s now ids).2 bid) := by
  rw [settle_completed_games_def]
  refine ⟨?_, ?_, ?_, ?_⟩
  · exact settle_list_counts now _ s
  · intro r hr
    exact settle_list_errors_failed now _ s r hr
  · intro bid hpf
    exact settle_list_settles now _ s bid (pending_final_mem_scan s bid hpf) hpf
  · intro ids bid hmem hpf
    exact settle_list_settles now ids s bid hmem hpf


theorem settlement_pass_isolation_witness :
    (settle_completed_games exState 5).1.bets_settled = 1 ∧
    (settle_completed_games exState 5).1.errors = [] ∧
    (settle_completed_games exState 5).1.games_processed = 1 ∧
    bet_settled (settle_completed_games exState 5).2 1 ∧
    bet_settled (settle_list exState 5 [99, 1]).2 1 ∧
    (settle_list exState 5 [99, 1]).1.2
      = [SettleResult.notFound 99] := by
  have hpf : pending_final exState 1 := ⟨exBet, exGame, rfl, rfl, rfl, rfl⟩
  have h := settlement_pass_isolation exState 5
  have hscan : ((completed_games exState).map
      (fun g => pending_bet_ids exState g.id)).flatten = [1] := by
    norm_num [completed_games, pending_bet_ids, exState, exGame, exBet]
  have heq := settle_bet_eq exState 1 5 exBet exGame rfl rfl rfl rfl
  have hsucc : ((settle_bet exState 1 5).1).success = true := by
    rw [heq]
    rfl
  have hone : settle_list exState 5 [1]
      = ((1, []), (settle_bet exState 1 5).2) := by
    rw [settle_list_cons]
    rw [if_pos hsucc]
    rfl
  have h99 : settle_bet exState 99 5 = (SettleResult.notFound 99, exState) := by
    unfold settle_bet findBet
    rfl
  have htwo : (settle_list exState 5 [99, 1]).1.2
      = [SettleResult.notFound 99] := by
    rw [settle_list_cons, h99]
    simp only [SettleResult.success]
    rw [if_neg (by simp)]
    rw [hone]
  refine ⟨?_, ?_, ?_, ?_, h.2.2.2 [99, 1] 1 (by simp) hpf, htwo⟩
  · rw [settle_completed_games_def]
    simp only [hscan, hone]
  · rw [settle_completed_games_def]
    simp only [hscan, hone]
  · rw [settle_completed_games_def]
    simp only
    rw [show completed_games exState = [exGame] from by
      norm_num [completed_games, exState, exGame, exBet]]
    rfl
  · exact h.2.2.1 1 hpf


/-- Number of this user's bets currently carrying the given status. -/
def count_status (s : SState) (st : String) : Nat :=
  s.bets.countP (fun b => b.status == st)

/-- Strengthened counter invariant: the win and loss counters count
exactly the won and lost bets, and `total_bets` counts every bet ever
placed (placement increments it and nothing decrements it). -/
def CounterInv (s : SState) : Prop :=
  s.user.winning_bets = count_status s "won" ∧
  s.user.losing_bets = count_status s "lost" ∧
  s.user.total_bets = s.bets.length

theorem countP_won_lost_le_length (l : List Bet) :
    l.countP (fun b => b.status == "won")
      + l.countP (fun b => b.status == "lost") ≤ l.length := by
  induction l with
  | nil => simp
  | cons b bs ih =>
    simp only [List.countP_cons, List.length_cons]
    by_cases h1 : (b.status == "won") = true
    · have h2 : (b.status == "lost") = false := by
        rw [beq_iff_eq] at h1
        rw [beq_eq_false_iff_ne, h1]
        decide
      rw [h1, h2]
      simp only [if_true, Bool.false_eq_true, if_false]
      omega
    · rw [Bool.not_eq_true] at h1
      rw [h1]
      by_cases h2 : (b.status == "lost") = true
      · rw [h2]
        simp only [if_true, Bool.false_eq_true, if_false]
        omega
      · rw [Bool.not_eq_true] at h2
        rw [h2]
        simp only [Bool.false_eq_true, if_false]
        omega

theorem CounterInv_placeV (s : SState) (gid : Nat) (team : String)
    (wager : Money) (now : Int) (h : CounterInv s) :
    CounterInv (BetValidatorSvc.validate_and_create_bet s gid team wager now).2 := by
  obtain ⟨h1, h2, h3⟩ := h
  unfold BetValidatorSvc.validate_and_create_bet
  by_cases hv : BetValidatorSvc.validate_bet s gid team
      (some (PyFloat.fin wager)) now = true
  · rw [if_pos hv]
    unfold BetValidatorSvc.create_bet
    rcases hfg : findGame s gid with _ | g
    · exact ⟨h1, h2, h3⟩
    · dsimp only
      unfold CounterInv count_status
      dsimp only
      rw [List.countP_append, List.countP_append, List.length_append]
      unfold count_status at h1 h2
      refine ⟨?_, ?_, ?_⟩
      · rw [h1]
        rfl
      · rw [h2]
        rfl
      · rw [h3]
        rfl
  · rw [if_neg hv]
    exact ⟨h1, h2, h3⟩


theorem count_after_setBet (l : List Bet) (bid : Nat) (bet nb : Bet)
    (st : String) (hb : l.find? (fun x => x.id == bid) = some bet)
    (hbst : (bet.status == st) = false) :
    (setBet l bid nb).countP (fun b => b.status == st)
      = l.countP (fun b => b.status == st)
        + (if (nb.status == st) = true then 1 else 0) := by
  have hc := setBet_countP l bid nb bet (fun b => b.status == st) hb
  simp only [hbst, Bool.false_eq_true, if_false, add_zero] at hc
  exact hc

theorem count_after_setBet_zero (l : List Bet) (bid : Nat) (bet nb : Bet)
    (st : String) (hb : l.find? (fun x => x.id == bid) = some bet)
    (hbst : (bet.status == st) = false)
    (hnbst : (nb.status == st) = false) :
    (setBet l bid nb).countP (fun b => b.status == st)
      = l.countP (fun b => b.status == st) := by
  rw [count_after_setBet l bid bet nb st hb hbst, hnbst]
  simp

theorem CounterInv_cancelV (s : SState) (bid : Nat) (now : Int)
    (h : CounterInv s) :
    CounterInv (BetValidatorSvc.cancel_bet s bid now).2 := by
  obtain ⟨h1, h2, h3⟩ := h
  unfold BetValidatorSvc.cancel_bet
  rcases hb : findBet s bid with _ | bet
  · exact ⟨h1, h2, h3⟩
  · simp only
    by_cases hpend : bet.status = "pending"
    case neg =>
      rw [if_pos hpend]
      exact ⟨h1, h2, h3⟩
    case pos =>
      rw [if_neg (not_not_intro hpend)]
      rcases hfg : findGame s bet.game_id with _ | g
      · exact ⟨h1, h2, h3⟩
      · simp only
        by_cases hallow : (if g.game_time ≤ now
            then Int.fdiv (now - g.game_time) 86400 > 1
            else now < g.game_time - minutes5)
        case neg =>
          rw [if_pos hallow]
          exact ⟨h1, h2, h3⟩
        case pos =>
          rw [if_neg (not_not_intro hallow)]
          unfold CounterInv count_status
          dsimp only
          have hwon := count_after_setBet_zero s.bets bid bet
            { bet with status := "cancelled", settled_at := some now } "won"
            hb (by rw [hpend]; decide) rfl
          have hlost := count_after_setBet_zero s.bets bid bet
            { bet with status := "cancelled", settled_at := some now } "lost"
            hb (by rw [hpend]; decide) rfl
          rw [hwon, hlost, setBet_length]
          unfold count_status at h1 h2
          exact ⟨h1, h2, h3⟩

theorem CounterInv_cancelS (s : SState) (bid : Nat) (now : Int)
    (h : CounterInv s) :
    CounterInv (BetService.cancel_bet s bid now).2 := by
  obtain ⟨h1, h2, h3⟩ := h
  unfold BetService.cancel_bet
  rcases hb : findBet s bid with _ | bet
  · exact ⟨h1, h2, h3⟩
  · simp only
    by_cases hpend : bet.status = "pending"
    case neg =>
      rw [if_pos hpend]
      exact ⟨h1, h2, h3⟩
    case pos =>
      rw [if_neg (not_not_intro hpend)]
      rcases hfg : findGame s bet.game_id with _ | g
      · exact ⟨h1, h2, h3⟩
      · simp only
        by_cases hcut : g.game_time - minutes5 ≤ now
        case pos =>
          rw [if_pos hcut]
          exact ⟨h1, h2, h3⟩
        case neg =>
          rw [if_neg hcut]
          unfold CounterInv count_status
          dsimp only
          have hwon := count_after_setBet_zero s.bets bid bet
            { bet with status := "cancelled", settled_at := some now } "won"
            hb (by rw [hpend]; decide) rfl
          have hlost := count_after_setBet_zero s.bets bid bet
            { bet with status := "cancelled", settled_at := some now } "lost"
            hb (by rw [hpend]; decide) rfl
          rw [hwon, hlost, setBet_length]
          unfold count_status at h1 h2
          exact ⟨h1, h2, h3⟩

theorem CounterInv_settle (s : SState) (bid : Nat) (now : Int)
    (h : CounterInv s) :
    CounterInv (settle_bet s bid now).2 := by
  obtain ⟨h1, h2, h3⟩ := h
  cases hsucc : ((settle_bet s bid now).1).success with
  | false =>
    rw [settle_bet_fail_frame s bid now hsucc]
    exact ⟨h1, h2, h3⟩
  | true =>
    obtain ⟨bet, game, hb, hg, hpend, hfin⟩ := settle_bet_ok_inv s bid now hsucc
    rw [settle_bet_eq s bid now bet game hb hg hpend hfin]
    unfold CounterInv count_status
    dsimp only
    have hwon := count_after_setBet s.bets bid bet
      { bet with status := determine_bet_outcome game bet,
                 actual_payout := calculate_payout bet (determine_bet_outcome game bet),
                 settled_at := some now } "won"
      hb (by rw [hpend]; decide)
    have hlost := count_after_setBet s.bets bid bet
      { bet with status := determine_bet_outcome game bet,
                 actual_payout := calculate_payout bet (determine_bet_outcome game bet),
                 settled_at := some now } "lost"
      hb (by rw [hpend]; decide)
    rw [hwon, hlost, setBet_length]
    unfold count_status at h1 h2
    rw [update_user_after_settlement_winning, update_user_after_settlement_losing,
        update_user_after_settlement_total]
    refine ⟨?_, ?_, h3⟩
    · rw [h1]
      simp [beq_iff_eq]
    · rw [h2]
      simp [beq_iff_eq]

theorem CounterInv_sync (s : SState) (gid : Nat) (st : String)
    (w : Option String) (tie : Bool) (h : CounterInv s) :
    CounterInv (update_existing_game s gid st w tie) := by
  obtain ⟨h1, h2, h3⟩ := h
  unfold update_existing_game
  rcases hfg : findGame s gid with _ | g
  · exact ⟨h1, h2, h3⟩
  · exact ⟨h1, h2, h3⟩


theorem CounterInv_run (min_bet mult : Money) :
    ∀ (ops : List Op) (s : SState),
      (∀ op ∈ ops, op.isPlaceS = false) → CounterInv s →
      CounterInv (runOps min_bet mult s ops) := by
  intro ops
  induction ops with
  | nil => intro s _ h; exact h
  | cons op ops ih =>
    intro s hops h
    unfold runOps
    apply ih _ (fun o ho => hops o (List.mem_cons_of_mem _ ho))
    cases op with
    | placeV gid team wager now => exact CounterInv_placeV s gid team wager now h
    | placeS gid team wager now =>
      exact absurd (hops _ (List.mem_cons_self _ _)) (by simp [Op.isPlaceS])
    | cancelV bid now => exact CounterInv_cancelV s bid now h
    | cancelS bid now => exact CounterInv_cancelS s bid now h
    | settleOp bid now => exact CounterInv_settle s bid now h
    | syncOp gid st w tie => exact CounterInv_sync s gid st w tie h

/-- C7 as amended: starting from a fresh user, every sequence of
placements through bet_validator.py's placement path, cancellations
through either service, settlements, and synchronizer game updates
preserves winningBets + losingBets <= totalBets; placements through
bet_service.py's `create_bet` are excluded because that path never
increments totalBets, so settling a bet it placed breaks the
invariant. -/
theorem counter_invariant_preserved (min_bet mult start : Money)
    (games : List Game) (ops : List Op)
    (hops : ∀ op ∈ ops, op.isPlaceS = false) :
    (runOps min_bet mult (init_state start games) ops).user.winning_bets
      + (runOps min_bet mult (init_state start games) ops).user.losing_bets
      ≤ (runOps min_bet mult (init_state start games) ops).user.total_bets := by
  have h := CounterInv_run min_bet mult ops (init_state start games) hops
    ⟨rfl, rfl, rfl⟩
  obtain ⟨h1, h2, h3⟩ := h
  rw [h1, h2, h3]
  exact countP_won_lost_le_length _

theorem counter_invariant_preserved_witness :
    (∀ op ∈ [Op.placeV 1 "Packers" 100 0,
             Op.syncOp 1 "final" (some "Packers") false,
             Op.settleOp 1 500], op.isPlaceS = false) ∧
    (runOps 1 2 (init_state 1000 [exGameSched])
        [Op.placeV 1 "Packers" 100 0,
         Op.syncOp 1 "final" (some "Packers") false,
         Op.settleOp 1 500]).user.winning_bets
      + (runOps 1 2 (init_state 1000 [exGameSched])
          [Op.placeV 1 "Packers" 100 0,
           Op.syncOp 1 "final" (some "Packers") false,
           Op.settleOp 1 500]).user.losing_bets
      ≤ (runOps 1 2 (init_state 1000 [exGameSched])
          [Op.placeV 1 "Packers" 100 0,
           Op.syncOp 1 "final" (some "Packers") false,
           Op.settleOp 1 500]).user.total_bets := by
  refine ⟨by decide, ?_⟩
  exact counter_invariant_preserved 1 2 1000 [exGameSched] _ (by decide)


def c7u : User :=
  { balance := 900, total_bets := 0, winning_bets := 0, losing_bets := 0,
    total_winnings := 0, total_losses := 0, biggest_win := 0,
    biggest_loss := 0 }

def c7s1 : SState :=
  { user := c7u, games := [exGameSched], bets := [exBet],
    transactions := [], next_bet_id := 2 }

def c7s2 : SState :=
  { user := c7u, games := [exGame], bets := [exBet],
    transactions := [], next_bet_id := 2 }

/-- C7 counterexample: place a 100 wager through bet_service.py's
`create_bet` (the betting-route path, which does not increment
totalBets), let the synchronizer mark the game final with the picked
team as winner, and settle the bet: the user ends with winningBets = 1
but totalBets = 0, so winningBets + losingBets <= totalBets fails. -/
theorem counter_invariant_violated_by_route_placement :
    (runOps 1 2 (init_state 1000 [exGameSched])
        [Op.placeS 1 "Packers" 100 0,
         Op.syncOp 1 "final" (some "Packers") false,
         Op.settleOp 1 500]).user.winning_bets = 1 ∧
    (runOps 1 2 (init_state 1000 [exGameSched])
        [Op.placeS 1 "Packers" 100 0,
         Op.syncOp 1 "final" (some "Packers") false,
         Op.settleOp 1 500]).user.losing_bets = 0 ∧
    (runOps 1 2 (init_state 1000 [exGameSched])
        [Op.placeS 1 "Packers" 100 0,
         Op.syncOp 1 "final" (some "Packers") false,
         Op.settleOp 1 500]).user.total_bets = 0 ∧
    ¬ ((runOps 1 2 (init_state 1000 [exGameSched])
        [Op.placeS 1 "Packers" 100 0,
         Op.syncOp 1 "final" (some "Packers") false,
         Op.settleOp 1 500]).user.winning_bets
      + (runOps 1 2 (init_state 1000 [exGameSched])
          [Op.placeS 1 "Packers" 100 0,
           Op.syncOp 1 "final" (some "Packers") false,
           Op.settleOp 1 500]).user.losing_bets
      ≤ (runOps 1 2 (init_state 1000 [exGameSched])
          [Op.placeS 1 "Packers" 100 0,
           Op.syncOp 1 "final" (some "Packers") false,
           Op.settleOp 1 500]).user.total_bets) := by
  have e1 : applyOp 1 2 (init_state 1000 [exGameSched])
      (Op.placeS 1 "Packers" 100 0) = c7s1 := by
    unfold applyOp
    norm_num [BetService.create_bet, BetService.validate_bet_comprehensive,
      BetService.validate_bet_amount, BetService.validate_game_timing,
      validate_team_selection, has_pending_bet, findGame, init_state,
      fresh_user, exGameSched, PyFloat.le, PyFloat.lt, minutes5]
    rw [if_neg (show ¬("Packers" = "") from by decide)]
    norm_num [c7s1, c7u, exBet, exGameSched]
  have e2 : applyOp 1 2 c7s1 (Op.syncOp 1 "final" (some "Packers") false)
      = c7s2 := rfl
  have e3 : runOps 1 2 (init_state 1000 [exGameSched])
      [Op.placeS 1 "Packers" 100 0,
       Op.syncOp 1 "final" (some "Packers") false,
       Op.settleOp 1 500] = (settle_bet c7s2 1 500).2 := by
    simp only [runOps, e1, e2]
    rfl
  rw [e3, settle_bet_eq c7s2 1 500 exBet exGame rfl rfl rfl rfl]
  dsimp only
  rw [update_user_after_settlement_winning,
      update_user_after_settlement_losing,
      update_user_after_settlement_total]
  norm_num [c7s2, c7u]
  refine ⟨by decide, by decide, by decide⟩

end DietNFL
